import Mathlib

/-!
Shallow embedding of `mergekit/scripts/evolve.py` (the `mergekit-evolve`
search driver) and proofs about its behaviour.

Conventions of the embedding:
* machine floats become rationals (`ℚ`); the driver's best-known cost, which
  starts at `np.inf`, becomes `WithTop ℚ` with `⊤` playing the role of
  `+infinity`;
* genotypes (flat numpy vectors) become `List ℚ`;
* the filesystem is a list of existing paths; `os.path.exists` is membership;
* side effects (prints, file writes, telemetry calls) are recorded in effect
  traces; a Python exception that propagates out of a piece of code is an
  `Option` error component carried next to the effects emitted before the
  raise (or an `Except` error result where no partial trace is needed);
* external collaborators (the genome, the lora-merge resolver, the
  transformers load/save calls, the wandb run handle) are abstracted as
  function-valued environment records; their outcomes (success / raise) are
  fields of those records.
-/

/-- A genotype: flat real-valued parameter vector handed around by CMA-ES. -/
abbrev Genotype := List ℚ

/-- Cost values as tracked by the driver; `⊤` models `np.inf`. -/
abbrev Cost := WithTop ℚ

/-- The fields of `es.result` (a `cma.CMAEvolutionStrategy` result) that the
driver reads: best cost so far, best genotype, distribution mean, stds and
the cumulative evaluation count. -/
structure CMAResult where
  fbest : ℚ
  xbest : Genotype
  xfavorite : Genotype
  stds : Genotype
  evaluations : ℕ
deriving DecidableEq

/-- An already-serialized merge configuration: `genotype_merge_config(x)`
together with its `.to_yaml()` rendering. -/
structure MergeConfig where
  toYaml : String
deriving DecidableEq

/-- The `path`/`revision` pair inside a `ModelReference`. -/
structure ModelDef where
  path : String
  revision : Option String
deriving DecidableEq

/-- `mergekit.common.ModelReference` as used by the driver: a reference to a
(checkpoint or merged) model. -/
structure ModelReference where
  model : ModelDef
deriving DecidableEq

/-- `os.path.join` for the two-argument uses in the driver. -/
def pathJoin (a b : String) : String := a ++ "/" ++ b

/-! ## `_reshard_model` -/

/-- Environment for `_reshard_model`: the external collaborators it calls.
`merged` is `model.merged(cache_dir, trust_remote_code)` (lora-merge
resolution); `uniqueId` is `._unique_id()`; `convOk d` says whether
`AutoModelForCausalLM.from_pretrained`/`save_pretrained` succeed for the
resolved model definition `d`; `tokOk d` says whether the tokenizer
load/save for the original model definition `d` succeeds. -/
structure ReshardEnv where
  merged : ModelReference → String → Bool → ModelReference
  uniqueId : ModelDef → String
  convOk : ModelDef → Bool
  tokOk : ModelDef → Bool

/-- Observable side effects of one `_reshard_model` call. -/
inductive ReshardEffect
  | logInfoExisting (path : String)
  | loadModel (path : String) (revision : Option String)
  | saveModel (path : String)
  | saveTokenizer (path : String)
  | warnTokenizer (model : ModelDef)
deriving DecidableEq

/-- The fatal error of `_reshard_model`: the model weight conversion
(`from_pretrained` / `save_pretrained`) raised. -/
inductive ConvError
  | fromPretrained (m : ModelDef)
deriving DecidableEq

/-- Result of a successful `_reshard_model` call: the returned reference, the
filesystem after the call, and the effects emitted. -/
structure ReshardResult where
  ref : ModelReference
  fs : List String
  effects : List ReshardEffect
deriving DecidableEq

/-- Does this effect represent conversion work (a weight load or save)? -/
def ReshardEffect.isConversion : ReshardEffect → Bool
  | .loadModel _ _ => true
  | .saveModel _ => true
  | _ => false

/-- The deterministic output path `storage_path/input_models/<unique_id>`
used by `_reshard_model`. -/
def reshardOutPath (env : ReshardEnv) (model : ModelReference)
    (storage_path merge_cache : String) (trust_remote_code : Bool) : String :=
  pathJoin (pathJoin storage_path "input_models")
    (env.uniqueId (env.merged model merge_cache trust_remote_code).model)

/-- `_reshard_model(model, storage_path, merge_cache, trust_remote_code)`:
resolve lora merges, derive the canonical single-shard path, return an
existing shard unchanged, otherwise convert (fatal on failure) and try to
copy the tokenizer (warn-and-continue on failure). -/
def _reshard_model (env : ReshardEnv) (model : ModelReference)
    (storage_path merge_cache : String) (trust_remote_code : Bool)
    (fs : List String) : Except ConvError ReshardResult :=
  let merged := env.merged model merge_cache trust_remote_code
  let out_path := reshardOutPath env model storage_path merge_cache trust_remote_code
  if out_path ∈ fs then
    .ok ⟨⟨⟨out_path, none⟩⟩, fs, [.logInfoExisting out_path]⟩
  else if env.convOk merged.model then
    let convEffects : List ReshardEffect :=
      [.loadModel merged.model.path merged.model.revision, .saveModel out_path]
    let fs' := fs ++ [out_path]
    if env.tokOk model.model then
      .ok ⟨⟨⟨out_path, none⟩⟩, fs', convEffects ++ [.saveTokenizer out_path]⟩
    else
      .ok ⟨⟨⟨out_path, none⟩⟩, fs', convEffects ++ [.warnTokenizer model.model]⟩
  else
    .error (.fromPretrained merged.model)

/-- If `_reshard_model` returns successfully, the output path is present in
the resulting filesystem. -/
theorem reshard_out_path_mem (env : ReshardEnv) (model : ModelReference)
    (storage_path merge_cache : String) (trust_remote_code : Bool)
    (fs : List String) (r : ReshardResult)
    (h : _reshard_model env model storage_path merge_cache trust_remote_code fs = .ok r) :
    reshardOutPath env model storage_path merge_cache trust_remote_code ∈ r.fs ∧
      r.ref = ⟨⟨reshardOutPath env model storage_path merge_cache trust_remote_code, none⟩⟩ := by
  unfold _reshard_model at h
  set p := reshardOutPath env model storage_path merge_cache trust_remote_code with hp
  by_cases hmem : p ∈ fs
  · rw [if_pos hmem] at h
    cases h
    exact ⟨hmem, rfl⟩
  · rw [if_neg hmem] at h
    by_cases hconv : env.convOk (env.merged model merge_cache trust_remote_code).model
    · rw [if_pos hconv] at h
      by_cases htok : env.tokOk model.model
      · rw [if_pos htok] at h
        cases h
        exact ⟨List.mem_append_right _ (List.mem_singleton.mpr rfl), rfl⟩
      · rw [if_neg htok] at h
        cases h
        exact ⟨List.mem_append_right _ (List.mem_singleton.mpr rfl), rfl⟩
    · rw [if_neg hconv] at h
      cases h

/-- C4: resharding is idempotent.  If a first call to `_reshard_model`
succeeds, a second call with the same arguments (on the filesystem the first
call left behind) succeeds, returns a reference to the same on-disk path —
derived deterministically from the resolved model's unique identity — leaves
the filesystem unchanged, and performs no conversion work (no weight load or
save). -/
theorem reshard_model_idempotent (env : ReshardEnv) (model : ModelReference)
    (storage_path merge_cache : String) (trust_remote_code : Bool)
    (fs : List String) (r1 : ReshardResult)
    (h : _reshard_model env model storage_path merge_cache trust_remote_code fs = .ok r1) :
    r1.ref = ⟨⟨reshardOutPath env model storage_path merge_cache trust_remote_code, none⟩⟩ ∧
    ∃ r2, _reshard_model env model storage_path merge_cache trust_remote_code r1.fs = .ok r2 ∧
      r2.ref = r1.ref ∧ r2.fs = r1.fs ∧
      ∀ e ∈ r2.effects, e.isConversion = false := by
  obtain ⟨hmem, href⟩ :=
    reshard_out_path_mem env model storage_path merge_cache trust_remote_code fs r1 h
  refine ⟨href, ⟨⟨r1.ref, r1.fs,
    [.logInfoExisting (reshardOutPath env model storage_path merge_cache trust_remote_code)]⟩,
    ?_, rfl, rfl, ?_⟩⟩
  · unfold _reshard_model
    rw [if_pos hmem, href]
  · intro e he
    rw [List.mem_singleton.mp he]
    rfl

/-- Witness for C4 at a concrete input: a fresh model is resharded, and the
second call is a cache hit with no conversion work. -/
theorem reshard_model_idempotent_witness :
    (⟨⟨⟨"store/input_models/m1", none⟩⟩,
      ["store/input_models/m1"],
      [.loadModel "m1" none, .saveModel "store/input_models/m1",
       .saveTokenizer "store/input_models/m1"]⟩ : ReshardResult).ref
        = ⟨⟨reshardOutPath ⟨fun m _ _ => m, fun d => d.path, fun _ => true, fun _ => true⟩
            ⟨⟨"m1", none⟩⟩ "store" "cache" true, none⟩⟩ ∧
    ∃ r2, _reshard_model ⟨fun m _ _ => m, fun d => d.path, fun _ => true, fun _ => true⟩
        ⟨⟨"m1", none⟩⟩ "store" "cache" true ["store/input_models/m1"] = .ok r2 ∧
      r2.ref = (⟨⟨⟨"store/input_models/m1", none⟩⟩,
        ["store/input_models/m1"],
        [.loadModel "m1" none, .saveModel "store/input_models/m1",
         .saveTokenizer "store/input_models/m1"]⟩ : ReshardResult).ref ∧
      r2.fs = ["store/input_models/m1"] ∧
      ∀ e ∈ r2.effects, e.isConversion = false :=
  reshard_model_idempotent ⟨fun m _ _ => m, fun d => d.path, fun _ => true, fun _ => true⟩
    ⟨⟨"m1", none⟩⟩ "store" "cache" true [] _ rfl

/-- C5: during resharding (with no existing shard at the output path), a
failure of only the auxiliary tokenizer copy is non-fatal — `_reshard_model`
logs a warning and still returns the reference to the newly converted
single-shard model — while a failure of the model weight conversion itself
propagates as a fatal error. -/
theorem reshard_tokenizer_failure_nonfatal (env : ReshardEnv) (model : ModelReference)
    (storage_path merge_cache : String) (trust_remote_code : Bool) (fs : List String)
    (hmem : reshardOutPath env model storage_path merge_cache trust_remote_code ∉ fs) :
    ((env.convOk (env.merged model merge_cache trust_remote_code).model = true ∧
        env.tokOk model.model = false) →
      _reshard_model env model storage_path merge_cache trust_remote_code fs =
        .ok ⟨⟨⟨reshardOutPath env model storage_path merge_cache trust_remote_code, none⟩⟩,
          fs ++ [reshardOutPath env model storage_path merge_cache trust_remote_code],
          [.loadModel (env.merged model merge_cache trust_remote_code).model.path
              (env.merged model merge_cache trust_remote_code).model.revision,
            .saveModel (reshardOutPath env model storage_path merge_cache trust_remote_code),
            .warnTokenizer model.model]⟩) ∧
    (env.convOk (env.merged model merge_cache trust_remote_code).model = false →
      _reshard_model env model storage_path merge_cache trust_remote_code fs =
        .error (.fromPretrained (env.merged model merge_cache trust_remote_code).model)) := by
  constructor
  · rintro ⟨hconv, htok⟩
    unfold _reshard_model
    rw [if_neg hmem, if_pos hconv, if_neg (by simp [htok])]
    rfl
  · intro hconv
    unfold _reshard_model
    rw [if_neg hmem, if_neg (by simp [hconv])]

/-- Witness for C5 at concrete inputs: with a failing tokenizer copy the call
still succeeds (with a warning effect); with a failing weight conversion it
raises. -/
theorem reshard_tokenizer_failure_nonfatal_witness :
    ((true = true ∧ false = false) →
      _reshard_model ⟨fun m _ _ => m, fun d => d.path, fun _ => true, fun _ => false⟩
          ⟨⟨"m1", none⟩⟩ "store" "cache" false [] =
        .ok ⟨⟨⟨reshardOutPath ⟨fun m _ _ => m, fun d => d.path, fun _ => true, fun _ => false⟩
              ⟨⟨"m1", none⟩⟩ "store" "cache" false, none⟩⟩,
          [] ++ [reshardOutPath ⟨fun m _ _ => m, fun d => d.path, fun _ => true, fun _ => false⟩
              ⟨⟨"m1", none⟩⟩ "store" "cache" false],
          [.loadModel "m1" none,
            .saveModel (reshardOutPath ⟨fun m _ _ => m, fun d => d.path, fun _ => true, fun _ => false⟩
              ⟨⟨"m1", none⟩⟩ "store" "cache" false),
            .warnTokenizer ⟨"m1", none⟩]⟩) ∧
    (true = false →
      _reshard_model ⟨fun m _ _ => m, fun d => d.path, fun _ => true, fun _ => false⟩
          ⟨⟨"m1", none⟩⟩ "store" "cache" false [] =
        .error (.fromPretrained ⟨"m1", none⟩)) :=
  reshard_tokenizer_failure_nonfatal
    ⟨fun m _ _ => m, fun d => d.path, fun _ => true, fun _ => false⟩
    ⟨⟨"m1", none⟩⟩ "store" "cache" false [] (by decide)

/-! ## Driver state, telemetry and the generation callback -/

/-- The wandb run handle returned by `wandb.init`: whether its `log` and
`log_artifact` calls succeed. -/
structure WandbRun where
  logOk : Bool
  artifactOk : Bool
deriving DecidableEq

/-- Driver-level flags: the `--wandb` (vs `--no-wandb`) option and whether the
`import wandb` at module load succeeded (`wandb is not None`). -/
structure DriverFlags where
  use_wandb : Bool
  wandbModule : Bool
deriving DecidableEq

/-- The `ModelGenome` collaborator, abstracted: the three methods the driver
calls on it. -/
structure GenomeEnv where
  initial_genotype : Bool → Genotype
  genotype_merge_config : Genotype → MergeConfig

/-- Observable side effects of the driver's closures and final report. -/
inductive DriverEffect
  | wandbLogGeneration (best_score : ℚ) (evaluations : ℕ)
  | printNewBest (score : ℚ)
  | writeBestConfig (path : String) (contents : String)
  | printMergeConfig (contents : String)
  | wandbLogArtifact (path : String)
  | printReceived (n : ℕ)
  | wandbLogPopulation
  | printComplete
  | printBestCost (cost : Cost)
  | printFinalConfig (contents : String)
deriving DecidableEq

/-- The driver's best-known state: the closure variables `xbest` and
`xbest_cost` of `main`. -/
structure BestState where
  xbest : Genotype
  xbest_cost : Cost
deriving DecidableEq

/-- An exception raised by a telemetry call: attribute access on a `None`
run handle, or the wandb call itself failing. -/
inductive TelemetryError
  | runIsNone
  | logFailed
deriving DecidableEq

/-- The path `os.path.join(storage_path, "best_config.yaml")`. -/
def bestConfigPath (storage_path : String) : String :=
  pathJoin storage_path "best_config.yaml"

/-- The pure state transition of `progress_callback`: update `xbest` and
`xbest_cost` exactly when `res.fbest < xbest_cost`. -/
def checkpoint_step (st : BestState) (res : CMAResult) : BestState :=
  if (res.fbest : Cost) < st.xbest_cost then ⟨res.xbest, (res.fbest : Cost)⟩ else st

/-- The best-known state after a sequence of generation callbacks. -/
def foldBest (st : BestState) (gens : List CMAResult) : BestState :=
  gens.foldl checkpoint_step st

/-- The wandb-log stage at the top of `progress_callback` (`if use_wandb:
run.log(...)`): the effects it emits and the exception it raises, if any. -/
def pcLog (flags : DriverFlags) (run : Option WandbRun) (res : CMAResult) :
    List DriverEffect × Option TelemetryError :=
  if flags.use_wandb then
    match run with
    | none => ([], some .runIsNone)
    | some r =>
      if r.logOk then ([.wandbLogGeneration (-res.fbest) res.evaluations], none)
      else ([], some .logFailed)
  else ([], none)

/-- The checkpoint stage of `progress_callback` (`if res.fbest < xbest_cost:`):
state update, prints, the `best_config.yaml` write, and the `if wandb:`
artifact upload.  Effects already emitted are kept when a later telemetry
call raises. -/
def pcCheckpoint (genome : GenomeEnv) (flags : DriverFlags) (run : Option WandbRun)
    (storage_path : String) (st : BestState) (res : CMAResult) :
    BestState × List DriverEffect × Option TelemetryError :=
  if (res.fbest : Cost) < st.xbest_cost then
    let st' : BestState := ⟨res.xbest, (res.fbest : Cost)⟩
    let best_yaml := (genome.genotype_merge_config res.xbest).toYaml
    let effs : List DriverEffect :=
      [.printNewBest (-res.fbest),
       .writeBestConfig (bestConfigPath storage_path) best_yaml,
       .printMergeConfig best_yaml]
    if flags.wandbModule then
      match run with
      | none => (st', effs, some .runIsNone)
      | some r =>
        if r.artifactOk then (st', effs ++ [.wandbLogArtifact (bestConfigPath storage_path)], none)
        else (st', effs, some .logFailed)
    else (st', effs, none)
  else (st, [], none)

/-- The generation callback `progress_callback(es)` handed to `cma.fmin2`:
optionally log to wandb, then checkpoint on strict improvement.  Returns the
updated closure state, the effects emitted before any raise, and the raised
exception, if any. -/
def progress_callback (genome : GenomeEnv) (flags : DriverFlags) (run : Option WandbRun)
    (storage_path : String) (st : BestState) (res : CMAResult) :
    BestState × List DriverEffect × Option TelemetryError :=
  match pcLog flags run res with
  | (effs, some e) => (st, effs, some e)
  | (effs, none) =>
    let out := pcCheckpoint genome flags run storage_path st res
    (out.1, effs ++ out.2.1, out.2.2)

/-- The parallel objective `parallel_evaluate(x)` handed to `cma.fmin2`:
print the batch size, run the evaluation strategy, optionally log population
statistics (`if wandb: run.log(...)`), and return the negated fitnesses.
`none` in the first component means the call raised instead of returning. -/
def parallel_evaluate (flags : DriverFlags) (run : Option WandbRun)
    (evalG : List Genotype → List ℚ) (x : List Genotype) :
    Option (List ℚ) × List DriverEffect × Option TelemetryError :=
  let res := evalG x
  let printEff : List DriverEffect := [.printReceived x.length]
  if flags.wandbModule then
    match run with
    | none => (none, printEff, some .runIsNone)
    | some r =>
      if r.logOk then
        (some (res.map fun v => -v), printEff ++ [.wandbLogPopulation], none)
      else (none, printEff, some .logFailed)
  else (some (res.map fun v => -v), printEff, none)

/-- The happy-path assumption about the telemetry sink: wandb is only
importable when requested, and when requested the run handle exists and its
calls succeed. -/
def telemetryOK (flags : DriverFlags) (run : Option WandbRun) : Prop :=
  (flags.wandbModule = true → flags.use_wandb = true) ∧
  (flags.use_wandb = true → ∃ r, run = some r ∧ r.logOk = true ∧ r.artifactOk = true)

/-- The running minimum of the generation best costs, starting at `+infinity`:
"the best cost seen in all previous generations". -/
def minCost (gens : List CMAResult) : Cost :=
  gens.foldl (fun c r => min c (r.fbest : Cost)) ⊤

/-- One checkpoint step takes the minimum of the stored cost and the
reported one. -/
theorem checkpoint_step_cost (st : BestState) (res : CMAResult) :
    (checkpoint_step st res).xbest_cost = min st.xbest_cost (res.fbest : Cost) := by
  unfold checkpoint_step
  rcases lt_or_le (res.fbest : Cost) st.xbest_cost with h | h
  · rw [if_pos h, min_eq_right h.le]
  · rw [if_neg (not_lt.mpr h), min_eq_left h]

/-- The folded best cost is the fold of `min` over the generation costs. -/
theorem foldBest_cost (st : BestState) (gens : List CMAResult) :
    (foldBest st gens).xbest_cost =
      gens.foldl (fun c r => min c (r.fbest : Cost)) st.xbest_cost := by
  induction gens generalizing st with
  | nil => rfl
  | cons g tl ih =>
    show (foldBest (checkpoint_step st g) tl).xbest_cost = _
    rw [ih, checkpoint_step_cost]
    rfl

/-- Started from cost `+infinity`, the folded best cost is exactly the
minimum cost over all processed generations. -/
theorem foldBest_cost_top (x0 : Genotype) (gens : List CMAResult) :
    (foldBest ⟨x0, ⊤⟩ gens).xbest_cost = minCost gens :=
  foldBest_cost ⟨x0, ⊤⟩ gens

/-- Under `telemetryOK`, the wandb-log stage does not raise, and emits only
generation-log effects. -/
theorem pcLog_ok (flags : DriverFlags) (run : Option WandbRun) (res : CMAResult)
    (hok : telemetryOK flags run) :
    ∃ effs, pcLog flags run res = (effs, none) ∧
      ∀ e ∈ effs, ∃ s n, e = DriverEffect.wandbLogGeneration s n := by
  obtain ⟨-, huse⟩ := hok
  unfold pcLog
  by_cases hu : flags.use_wandb = true
  · obtain ⟨r, hr, hlog, -⟩ := huse hu
    rw [if_pos hu, hr]
    simp only [hlog, if_pos]
    exact ⟨_, rfl, by
      intro e he
      rw [List.mem_singleton.mp he]
      exact ⟨_, _, rfl⟩⟩
  · rw [if_neg hu]
    exact ⟨[], rfl, by intro e he; cases he⟩

/-- The first component of `pcCheckpoint` is always `checkpoint_step`. -/
theorem pcCheckpoint_fst (genome : GenomeEnv) (flags : DriverFlags)
    (run : Option WandbRun) (storage_path : String) (st : BestState) (res : CMAResult) :
    (pcCheckpoint genome flags run storage_path st res).1 = checkpoint_step st res := by
  unfold pcCheckpoint checkpoint_step
  by_cases h : (res.fbest : Cost) < st.xbest_cost
  · by_cases hm : flags.wandbModule = true
    · rcases run with _ | r
      · simp [h, hm]
      · by_cases ha : r.artifactOk = true <;> simp [h, hm, ha]
    · simp [h, hm]
  · simp [h]

/-- On a strict improvement and with a healthy sink, the checkpoint stage
updates the state, emits the report/write effects, and does not raise. -/
theorem pcCheckpoint_pos (genome : GenomeEnv) (flags : DriverFlags)
    (run : Option WandbRun) (storage_path : String) (st : BestState) (res : CMAResult)
    (hok : telemetryOK flags run) (hlt : (res.fbest : Cost) < st.xbest_cost) :
    ∃ tail, pcCheckpoint genome flags run storage_path st res =
      (⟨res.xbest, (res.fbest : Cost)⟩,
        [.printNewBest (-res.fbest),
         .writeBestConfig (bestConfigPath storage_path)
           ((genome.genotype_merge_config res.xbest).toYaml),
         .printMergeConfig ((genome.genotype_merge_config res.xbest).toYaml)] ++ tail,
        none) := by
  obtain ⟨hmod, huse⟩ := hok
  unfold pcCheckpoint
  by_cases hm : flags.wandbModule = true
  · obtain ⟨r, hr, -, hart⟩ := huse (hmod hm)
    subst hr
    refine ⟨[.wandbLogArtifact (bestConfigPath storage_path)], ?_⟩
    simp [hlt, hm, hart]
  · refine ⟨[], ?_⟩
    simp [hlt, hm]

/-- With no improvement, the checkpoint stage is a no-op. -/
theorem pcCheckpoint_neg (genome : GenomeEnv) (flags : DriverFlags)
    (run : Option WandbRun) (storage_path : String) (st : BestState) (res : CMAResult)
    (hlt : ¬ (res.fbest : Cost) < st.xbest_cost) :
    pcCheckpoint genome flags run storage_path st res = (st, [], none) := by
  unfold pcCheckpoint
  simp [hlt]

/-- When the wandb-log stage does not raise, `progress_callback` is the
checkpoint stage prefixed with the log effects. -/
theorem progress_callback_eq (genome : GenomeEnv) (flags : DriverFlags)
    (run : Option WandbRun) (storage_path : String) (st : BestState) (res : CMAResult)
    (effs0 : List DriverEffect) (h : pcLog flags run res = (effs0, none)) :
    progress_callback genome flags run storage_path st res =
      ((pcCheckpoint genome flags run storage_path st res).1,
       effs0 ++ (pcCheckpoint genome flags run storage_path st res).2.1,
       (pcCheckpoint genome flags run storage_path st res).2.2) := by
  unfold progress_callback
  rw [h]

/-- C1: on every generation callback, the driver overwrites the best-config
artifact (`best_config.yaml` under the storage path, holding the YAML of
`genotype_merge_config` applied to the optimizer's best genotype) and prints
the new best score if and only if that generation's best cost is strictly
below the minimum best cost of all previous generations (initially
`+infinity`); with a healthy telemetry sink the callback does not raise. -/
theorem best_config_overwrite_iff (genome : GenomeEnv) (flags : DriverFlags)
    (run : Option WandbRun) (storage_path : String) (x0 : Genotype)
    (prev : List CMAResult) (res : CMAResult) (hok : telemetryOK flags run) :
    (progress_callback genome flags run storage_path (foldBest ⟨x0, ⊤⟩ prev) res).2.2 = none ∧
    ((DriverEffect.writeBestConfig (bestConfigPath storage_path)
          ((genome.genotype_merge_config res.xbest).toYaml)
        ∈ (progress_callback genome flags run storage_path (foldBest ⟨x0, ⊤⟩ prev) res).2.1 ∧
      DriverEffect.printNewBest (-res.fbest)
        ∈ (progress_callback genome flags run storage_path (foldBest ⟨x0, ⊤⟩ prev) res).2.1)
      ↔ (res.fbest : Cost) < minCost prev) := by
  have hcost : (foldBest ⟨x0, ⊤⟩ prev).xbest_cost = minCost prev := foldBest_cost_top x0 prev
  obtain ⟨effs0, hlog, heffs0⟩ := pcLog_ok flags run res hok
  rw [progress_callback_eq genome flags run storage_path (foldBest ⟨x0, ⊤⟩ prev) res effs0 hlog]
  by_cases hlt : (res.fbest : Cost) < (foldBest ⟨x0, ⊤⟩ prev).xbest_cost
  · obtain ⟨tail, hcp⟩ :=
      pcCheckpoint_pos genome flags run storage_path (foldBest ⟨x0, ⊤⟩ prev) res hok hlt
    rw [hcp]
    refine ⟨rfl, ?_⟩
    constructor
    · intro _
      rw [← hcost]
      exact hlt
    · intro _
      constructor
      · exact List.mem_append_right _ (List.mem_append_left _ (by simp))
      · exact List.mem_append_right _ (List.mem_append_left _ (by simp))
  · rw [pcCheckpoint_neg genome flags run storage_path (foldBest ⟨x0, ⊤⟩ prev) res hlt]
    refine ⟨rfl, ?_⟩
    constructor
    · rintro ⟨hw, -⟩
      rw [List.append_nil] at hw
      obtain ⟨s, n, he⟩ := heffs0 _ hw
      cases he
    · intro hmin
      rw [← hcost] at hmin
      exact absurd hmin hlt

/-- Witness for C1 at a concrete input: with telemetry disabled, a first
generation with finite best cost beats the initial `+infinity` and triggers
the artifact write and report. -/
theorem best_config_overwrite_iff_witness :
    (progress_callback ⟨fun _ => [], fun _ => ⟨"yaml"⟩⟩ ⟨false, false⟩ none "s"
        (foldBest ⟨[], ⊤⟩ []) ⟨-1, [2], [], [], 3⟩).2.2 = none ∧
    ((DriverEffect.writeBestConfig (bestConfigPath "s")
          ((MergeConfig.mk "yaml").toYaml)
        ∈ (progress_callback ⟨fun _ => [], fun _ => ⟨"yaml"⟩⟩ ⟨false, false⟩ none "s"
            (foldBest ⟨[], ⊤⟩ []) ⟨-1, [2], [], [], 3⟩).2.1 ∧
      DriverEffect.printNewBest (-(-1 : ℚ))
        ∈ (progress_callback ⟨fun _ => [], fun _ => ⟨"yaml"⟩⟩ ⟨false, false⟩ none "s"
            (foldBest ⟨[], ⊤⟩ []) ⟨-1, [2], [], [], 3⟩).2.1)
      ↔ ((-1 : ℚ) : Cost) < minCost []) :=
  best_config_overwrite_iff ⟨fun _ => [], fun _ => ⟨"yaml"⟩⟩ ⟨false, false⟩ none "s"
    [] [] ⟨-1, [2], [], [], 3⟩ ⟨(fun h => nomatch h), (fun h => nomatch h)⟩

/-- C2: whenever the telemetry step succeeds and the evaluation strategy
honours its length contract, `parallel_evaluate` returns a list of the same
length as the batch whose i-th element is the arithmetic negation of the
i-th fitness returned by the strategy. -/
theorem parallel_evaluate_negates (flags : DriverFlags) (run : Option WandbRun)
    (evalG : List Genotype → List ℚ) (x : List Genotype)
    (hlen : (evalG x).length = x.length)
    (hok : flags.wandbModule = true → ∃ r, run = some r ∧ r.logOk = true) :
    ∃ out effs, parallel_evaluate flags run evalG x = (some out, effs, none) ∧
      out.length = x.length ∧
      ∀ i, i < x.length → out[i]? = ((evalG x)[i]?).map (fun v => -v) := by
  unfold parallel_evaluate
  by_cases hm : flags.wandbModule = true
  · obtain ⟨r, hr, hlog⟩ := hok hm
    subst hr
    refine ⟨(evalG x).map (fun v => -v),
      [.printReceived x.length, .wandbLogPopulation], ?_, ?_, ?_⟩
    · simp [hm, hlog]
    · simp [hlen]
    · intro i _
      exact List.getElem?_map _ _ _
  · refine ⟨(evalG x).map (fun v => -v), [.printReceived x.length], ?_, ?_, ?_⟩
    · simp [hm]
    · simp [hlen]
    · intro i _
      exact List.getElem?_map _ _ _

/-- Witness for C2 at a concrete input: a two-genotype batch evaluated by a
head-scoring strategy yields the negated scores positionally. -/
theorem parallel_evaluate_negates_witness :
    ∃ out effs, parallel_evaluate ⟨false, false⟩ none
        (fun b => b.map (fun g => g.headD 0)) [[1], [2]] = (some out, effs, none) ∧
      out.length = ([[1], [2]] : List Genotype).length ∧
      ∀ i, i < ([[1], [2]] : List Genotype).length →
        out[i]? = ((([[1], [2]] : List Genotype).map (fun g => g.headD 0))[i]?).map (fun v => -v) :=
  parallel_evaluate_negates ⟨false, false⟩ none (fun b => b.map (fun g => g.headD 0))
    [[1], [2]] rfl (fun h => nomatch h)

/-- The folded best state is either the initial state unchanged or the
record of some processed generation. -/
theorem foldBest_record (st : BestState) (gens : List CMAResult) :
    foldBest st gens = st ∨
      ∃ r ∈ gens, foldBest st gens = ⟨r.xbest, (r.fbest : Cost)⟩ := by
  induction gens generalizing st with
  | nil => exact Or.inl rfl
  | cons g tl ih =>
    have hstep : foldBest st (g :: tl) = foldBest (checkpoint_step st g) tl := rfl
    rcases ih (checkpoint_step st g) with h | ⟨r, hr, h⟩
    · by_cases hg : (g.fbest : Cost) < st.xbest_cost
      · refine Or.inr ⟨g, List.mem_cons_self g tl, ?_⟩
        rw [hstep, h]
        unfold checkpoint_step
        rw [if_pos hg]
      · refine Or.inl ?_
        rw [hstep, h]
        unfold checkpoint_step
        rw [if_neg hg]
    · exact Or.inr ⟨r, List.mem_cons_of_mem _ hr, hstep ▸ h⟩

/-- C9: the driver's best-known state starts at `(x0, +infinity)`; one
callback step never increases the stored cost, reassigns the pair exactly
when the reported cost is strictly smaller (and then to the reported
genotype/cost record); the folded cost is non-increasing as generations are
appended; and the folded pair always records the genotype that achieved the
currently recorded cost, or the initial genotype while the cost is still
`+infinity`. -/
theorem best_state_invariant (x0 : Genotype) (st : BestState) (res : CMAResult)
    (gens : List CMAResult) :
    foldBest ⟨x0, ⊤⟩ [] = ⟨x0, ⊤⟩ ∧
    (checkpoint_step st res).xbest_cost ≤ st.xbest_cost ∧
    (checkpoint_step st res ≠ st →
      (res.fbest : Cost) < st.xbest_cost ∧
        checkpoint_step st res = ⟨res.xbest, (res.fbest : Cost)⟩) ∧
    ((res.fbest : Cost) < st.xbest_cost →
      checkpoint_step st res = ⟨res.xbest, (res.fbest : Cost)⟩) ∧
    (foldBest ⟨x0, ⊤⟩ (gens ++ [res])).xbest_cost ≤ (foldBest ⟨x0, ⊤⟩ gens).xbest_cost ∧
    (((foldBest ⟨x0, ⊤⟩ gens).xbest_cost = ⊤ ∧ (foldBest ⟨x0, ⊤⟩ gens).xbest = x0) ∨
      ∃ r ∈ gens, foldBest ⟨x0, ⊤⟩ gens = ⟨r.xbest, (r.fbest : Cost)⟩) := by
  refine ⟨rfl, ?_, ?_, ?_, ?_, ?_⟩
  · rw [checkpoint_step_cost]
    exact min_le_left _ _
  · intro hne
    unfold checkpoint_step at hne ⊢
    by_cases hg : (res.fbest : Cost) < st.xbest_cost
    · rw [if_pos hg]
      exact ⟨hg, rfl⟩
    · rw [if_neg hg] at hne
      exact absurd rfl hne
  · intro hg
    unfold checkpoint_step
    rw [if_pos hg]
  · have : foldBest ⟨x0, ⊤⟩ (gens ++ [res]) =
        checkpoint_step (foldBest ⟨x0, ⊤⟩ gens) res := by
      unfold foldBest
      rw [List.foldl_append]
      rfl
    rw [this, checkpoint_step_cost]
    exact min_le_left _ _
  · rcases foldBest_record ⟨x0, ⊤⟩ gens with h | h
    · exact Or.inl (by rw [h]; exact ⟨rfl, rfl⟩)
    · exact Or.inr h

/-- Witness for C9 at a concrete input: a single generation with finite cost
is recorded, and all step properties hold at that point. -/
theorem best_state_invariant_witness :
    foldBest ⟨[], ⊤⟩ [] = ⟨[], ⊤⟩ ∧
    (checkpoint_step ⟨[], ⊤⟩ ⟨1, [5], [], [], 2⟩).xbest_cost ≤ (⟨[], ⊤⟩ : BestState).xbest_cost ∧
    (checkpoint_step ⟨[], ⊤⟩ ⟨1, [5], [], [], 2⟩ ≠ ⟨[], ⊤⟩ →
      ((1 : ℚ) : Cost) < (⟨[], ⊤⟩ : BestState).xbest_cost ∧
        checkpoint_step ⟨[], ⊤⟩ ⟨1, [5], [], [], 2⟩ = ⟨[5], ((1 : ℚ) : Cost)⟩) ∧
    (((1 : ℚ) : Cost) < (⟨[], ⊤⟩ : BestState).xbest_cost →
      checkpoint_step ⟨[], ⊤⟩ ⟨1, [5], [], [], 2⟩ = ⟨[5], ((1 : ℚ) : Cost)⟩) ∧
    (foldBest ⟨[], ⊤⟩ ([⟨1, [5], [], [], 2⟩] ++ [⟨1, [5], [], [], 2⟩])).xbest_cost ≤
      (foldBest ⟨[], ⊤⟩ [⟨1, [5], [], [], 2⟩]).xbest_cost ∧
    (((foldBest ⟨[], ⊤⟩ [⟨1, [5], [], [], 2⟩]).xbest_cost = ⊤ ∧
        (foldBest ⟨[], ⊤⟩ [⟨1, [5], [], [], 2⟩]).xbest = []) ∨
      ∃ r ∈ [(⟨1, [5], [], [], 2⟩ : CMAResult)],
        foldBest ⟨[], ⊤⟩ [⟨1, [5], [], [], 2⟩] = ⟨r.xbest, (r.fbest : Cost)⟩) :=
  best_state_invariant [] ⟨[], ⊤⟩ ⟨1, [5], [], [], 2⟩ [⟨1, [5], [], [], 2⟩]

/-! ## The optimizer loop and `main` -/

/-- One generation of the `cma.fmin2` loop as observed by the driver: the
batch handed to `parallel_evaluate` and the `es.result` value at the
subsequent `progress_callback` invocation. -/
structure Generation where
  batch : List Genotype
  res : CMAResult
deriving DecidableEq

/-- How the `cma.fmin2` call ends: normally (returning `xbest` with
`es.result.fbest`) or by a `KeyboardInterrupt` raised mid-loop. -/
inductive LoopOutcome
  | normal (xbest : Genotype) (fbest : ℚ)
  | interrupted
deriving DecidableEq

/-- The driver's view of the optimizer loop: for each generation, call
`parallel_evaluate` on the batch and then `progress_callback`; a telemetry
exception stops the loop and propagates (it is not a `KeyboardInterrupt`).
Returns the final closure state, the effects emitted, and the propagated
exception, if any. -/
def runLoop (genome : GenomeEnv) (flags : DriverFlags) (run : Option WandbRun)
    (storage_path : String) (evalG : List Genotype → List ℚ) :
    BestState → List Generation → BestState × List DriverEffect × Option TelemetryError
  | st, [] => (st, [], none)
  | st, g :: rest =>
    match parallel_evaluate flags run evalG g.batch with
    | (_, effs, some e) => (st, effs, some e)
    | (_, effs, none) =>
      match progress_callback genome flags run storage_path st g.res with
      | (st', effs', some e) => (st', effs ++ effs', some e)
      | (st', effs', none) =>
        let out := runLoop genome flags run storage_path evalG st' rest
        (out.1, effs ++ effs' ++ out.2.1, out.2.2)

/-- The final report printed after the `try/except KeyboardInterrupt` block:
the completion banner, the best cost, and the serialized best merge
configuration. -/
def finalReport (genome : GenomeEnv) (st : BestState) : List DriverEffect :=
  [.printComplete, .printBestCost st.xbest_cost,
   .printFinalConfig ((genome.genotype_merge_config st.xbest).toYaml)]

/-- Events of `main` in program order. -/
inductive MainEvent
  | loadConfig
  | wandbInit
  | mergeOptionsBuilt
  | reshardCall (m : ModelReference)
  | genomeBuilt
  | strategyBuilt
  | eff (e : DriverEffect)
deriving DecidableEq

/-- An error that aborts `main`: the explicit `RuntimeError` when wandb is
requested but not importable, a fatal conversion error during resharding, or
a telemetry exception propagating out of the optimizer loop (the top-level
handler only catches `KeyboardInterrupt`). -/
inductive MainError
  | wandbNotInstalled
  | conv (e : ConvError)
  | telemetry (e : TelemetryError)
deriving DecidableEq

/-- The run configuration fields of `EvolMergeConfiguration` that `main`
reads: the genome's input models, optional base model, and the random-init
flag. -/
structure EvolConfig where
  models : List ModelReference
  base_model : Option ModelReference
  random_init : Bool
deriving DecidableEq

/-- The resharding loop of `main` over the input models: threads the
filesystem, stops at the first fatal conversion error. -/
def reshardAll (renv : ReshardEnv) (storage_path merge_cache : String)
    (trust_remote_code : Bool) :
    List ModelReference → List String →
      List ModelReference × List String × List MainEvent × Option ConvError
  | [], fs => ([], fs, [], none)
  | m :: rest, fs =>
    match _reshard_model renv m storage_path merge_cache trust_remote_code fs with
    | .error e => ([], fs, [.reshardCall m], some e)
    | .ok r =>
      let out := reshardAll renv storage_path merge_cache trust_remote_code rest r.fs
      (r.ref :: out.1, out.2.1, .reshardCall m :: out.2.2.1, out.2.2.2)

/-- The body of `main`, from configuration load to the final report: returns
the events emitted in program order and the error that aborted the run, if
any. -/
def runMain (genome : GenomeEnv) (renv : ReshardEnv) (flags : DriverFlags)
    (runHandle : WandbRun) (config : EvolConfig) (storage_path : String)
    (trust_remote_code : Bool) (evalG : List Genotype → List ℚ)
    (fs : List String) (gens : List Generation) (outcome : LoopOutcome) :
    List MainEvent × Option MainError :=
  let ev0 : List MainEvent := [.loadConfig]
  if flags.use_wandb && !flags.wandbModule then
    (ev0, some .wandbNotInstalled)
  else
    let run : Option WandbRun := if flags.use_wandb then some runHandle else none
    let ev1 := ev0 ++ (if flags.use_wandb then [MainEvent.wandbInit] else []) ++
      [MainEvent.mergeOptionsBuilt]
    let merge_cache := pathJoin storage_path "lora_merge_cache"
    let rAll := reshardAll renv storage_path merge_cache trust_remote_code config.models fs
    match rAll.2.2.2 with
    | some e => (ev1 ++ rAll.2.2.1, some (.conv e))
    | none =>
      let rBase :
          List MainEvent × List String × Option ConvError :=
        match config.base_model with
        | none => ([], rAll.2.1, none)
        | some b =>
          match _reshard_model renv b storage_path merge_cache trust_remote_code rAll.2.1 with
          | .error e => ([MainEvent.reshardCall b], rAll.2.1, some e)
          | .ok r => ([MainEvent.reshardCall b], r.fs, none)
      match rBase.2.2 with
      | some e => (ev1 ++ rAll.2.2.1 ++ rBase.1, some (.conv e))
      | none =>
        let ev2 := ev1 ++ rAll.2.2.1 ++ rBase.1 ++
          [MainEvent.genomeBuilt, MainEvent.strategyBuilt]
        let x0 := genome.initial_genotype config.random_init
        let loopOut := runLoop genome flags run storage_path evalG ⟨x0, ⊤⟩ gens
        let ev3 := ev2 ++ loopOut.2.1.map MainEvent.eff
        match loopOut.2.2 with
        | some e => (ev3, some (.telemetry e))
        | none =>
          let finalSt : BestState :=
            match outcome with
            | .normal xb fb => ⟨xb, (fb : Cost)⟩
            | .interrupted => loopOut.1
          (ev3 ++ (finalReport genome finalSt).map MainEvent.eff, none)

/-- When every weight conversion succeeds, `_reshard_model` never raises. -/
theorem reshard_model_ok (renv : ReshardEnv) (m : ModelReference)
    (storage_path merge_cache : String) (trust_remote_code : Bool) (fs : List String)
    (hconv : ∀ d, renv.convOk d = true) :
    ∃ r, _reshard_model renv m storage_path merge_cache trust_remote_code fs = .ok r := by
  rcases he : _reshard_model renv m storage_path merge_cache trust_remote_code fs with e | r
  · exfalso
    unfold _reshard_model at he
    by_cases hmem : reshardOutPath renv m storage_path merge_cache trust_remote_code ∈ fs
    · rw [if_pos hmem] at he
      cases he
    · rw [if_neg hmem, if_pos (hconv _)] at he
      by_cases htok : renv.tokOk m.model = true
      · rw [if_pos htok] at he
        cases he
      · rw [if_neg htok] at he
        cases he
  · exact ⟨r, rfl⟩

/-- When every weight conversion succeeds, the resharding loop emits exactly
one reshard call per input model, in order, and no error. -/
theorem reshardAll_ok (renv : ReshardEnv) (storage_path merge_cache : String)
    (trust_remote_code : Bool) (hconv : ∀ d, renv.convOk d = true) :
    ∀ (models : List ModelReference) (fs : List String),
      (reshardAll renv storage_path merge_cache trust_remote_code models fs).2.2.2 = none ∧
      (reshardAll renv storage_path merge_cache trust_remote_code models fs).2.2.1 =
        models.map MainEvent.reshardCall := by
  intro models
  induction models with
  | nil => intro fs; exact ⟨rfl, rfl⟩
  | cons m rest ih =>
    intro fs
    obtain ⟨r, hr⟩ :=
      reshard_model_ok renv m storage_path merge_cache trust_remote_code fs hconv
    constructor
    · simp only [reshardAll, hr]
      exact (ih r.fs).1
    · simp only [reshardAll, hr, List.map_cons]
      rw [(ih r.fs).2]

/-- The run handle `main` builds satisfies `telemetryOK` when wandb is
importable exactly when requested and the handle's calls succeed. -/
theorem telemetryOK_derived (flags : DriverFlags) (runHandle : WandbRun)
    (hm : flags.wandbModule = flags.use_wandb) (hlog : runHandle.logOk = true)
    (hart : runHandle.artifactOk = true) :
    telemetryOK flags (if flags.use_wandb then some runHandle else none) := by
  constructor
  · intro h
    rw [hm] at h
    exact h
  · intro hu
    rw [if_pos hu]
    exact ⟨runHandle, rfl, hlog, hart⟩

/-- Under `telemetryOK`, `parallel_evaluate` returns the negated fitnesses
without raising. -/
theorem parallel_evaluate_ok (flags : DriverFlags) (run : Option WandbRun)
    (evalG : List Genotype → List ℚ) (x : List Genotype)
    (hok : telemetryOK flags run) :
    ∃ effs, parallel_evaluate flags run evalG x =
      (some ((evalG x).map fun v => -v), effs, none) := by
  obtain ⟨hmod, huse⟩ := hok
  unfold parallel_evaluate
  by_cases hm : flags.wandbModule = true
  · obtain ⟨r, hr, hlog, -⟩ := huse (hmod hm)
    subst hr
    refine ⟨[.printReceived x.length, .wandbLogPopulation], ?_⟩
    simp [hm, hlog]
  · refine ⟨[.printReceived x.length], ?_⟩
    simp [hm]

/-- Under `telemetryOK`, `progress_callback` performs exactly the pure
checkpoint step and does not raise. -/
theorem progress_callback_ok (genome : GenomeEnv) (flags : DriverFlags)
    (run : Option WandbRun) (storage_path : String) (st : BestState) (res : CMAResult)
    (hok : telemetryOK flags run) :
    ∃ effs, progress_callback genome flags run storage_path st res =
      (checkpoint_step st res, effs, none) := by
  obtain ⟨effs0, hlog, -⟩ := pcLog_ok flags run res hok
  by_cases hlt : (res.fbest : Cost) < st.xbest_cost
  · obtain ⟨tail, hcp⟩ := pcCheckpoint_pos genome flags run storage_path st res hok hlt
    refine ⟨effs0 ++
      ([.printNewBest (-res.fbest),
        .writeBestConfig (bestConfigPath storage_path)
          ((genome.genotype_merge_config res.xbest).toYaml),
        .printMergeConfig ((genome.genotype_merge_config res.xbest).toYaml)] ++ tail), ?_⟩
    rw [progress_callback_eq genome flags run storage_path st res effs0 hlog, hcp]
    unfold checkpoint_step
    rw [if_pos hlt]
  · refine ⟨effs0 ++ [], ?_⟩
    rw [progress_callback_eq genome flags run storage_path st res effs0 hlog,
      pcCheckpoint_neg genome flags run storage_path st res hlt]
    unfold checkpoint_step
    rw [if_neg hlt]

/-- Under `telemetryOK`, the optimizer loop never raises and its final
closure state is the fold of the checkpoint step over the generations'
results. -/
theorem runLoop_ok (genome : GenomeEnv) (flags : DriverFlags) (run : Option WandbRun)
    (storage_path : String) (evalG : List Genotype → List ℚ)
    (hok : telemetryOK flags run) :
    ∀ (gens : List Generation) (st : BestState),
      ∃ effs, runLoop genome flags run storage_path evalG st gens =
        (foldBest st (gens.map Generation.res), effs, none) := by
  intro gens
  induction gens with
  | nil => intro st; exact ⟨[], rfl⟩
  | cons g rest ih =>
    intro st
    obtain ⟨effsP, hP⟩ := parallel_evaluate_ok flags run evalG g.batch hok
    obtain ⟨effsC, hC⟩ := progress_callback_ok genome flags run storage_path st g.res hok
    obtain ⟨effsR, hR⟩ := ih (checkpoint_step st g.res)
    refine ⟨effsP ++ effsC ++ effsR, ?_⟩
    simp only [runLoop, hP, hC, hR]
    rfl

/-- The run handle value `main` passes to its closures. -/
def derivedRun (flags : DriverFlags) (runHandle : WandbRun) : Option WandbRun :=
  if flags.use_wandb then some runHandle else none

/-- The events `main` emits from configuration load up to strategy
construction, in program order: one reshard call per input model (and the
base model, when present), all before the genome and strategy are built. -/
def mainPrefix (flags : DriverFlags) (config : EvolConfig) : List MainEvent :=
  [MainEvent.loadConfig] ++ (if flags.use_wandb then [MainEvent.wandbInit] else []) ++
  [MainEvent.mergeOptionsBuilt] ++
  (config.models ++ config.base_model.toList).map MainEvent.reshardCall ++
  [MainEvent.genomeBuilt, MainEvent.strategyBuilt]

/-- Reduction of `runMain` when the wandb-availability check passes and all
weight conversions succeed: the trace is the init/reshard prefix followed by
the loop effects, and then either the propagated telemetry exception or the
final report (computed from the loop's checkpointed state on interruption,
and from the optimizer's returned best on normal completion). -/
theorem runMain_reduce (genome : GenomeEnv) (renv : ReshardEnv) (flags : DriverFlags)
    (runHandle : WandbRun) (config : EvolConfig) (storage_path : String)
    (trust_remote_code : Bool) (evalG : List Genotype → List ℚ)
    (fs : List String) (gens : List Generation) (outcome : LoopOutcome)
    (hw : (flags.use_wandb && !flags.wandbModule) = false)
    (hconv : ∀ d, renv.convOk d = true) :
    runMain genome renv flags runHandle config storage_path trust_remote_code evalG
        fs gens outcome =
      (match runLoop genome flags (derivedRun flags runHandle) storage_path evalG
          ⟨genome.initial_genotype config.random_init, ⊤⟩ gens with
       | (_, effsL, some e) =>
         (mainPrefix flags config ++ effsL.map MainEvent.eff, some (.telemetry e))
       | (stL, effsL, none) =>
         (mainPrefix flags config ++ effsL.map MainEvent.eff ++
           (finalReport genome
             (match outcome with
              | .normal xb fb => ⟨xb, (fb : Cost)⟩
              | .interrupted => stL)).map MainEvent.eff,
          none)) := by
  obtain ⟨hAerr, hAev⟩ := reshardAll_ok renv storage_path
    (pathJoin storage_path "lora_merge_cache") trust_remote_code hconv config.models fs
  rcases hLoop : runLoop genome flags (derivedRun flags runHandle) storage_path evalG
      ⟨genome.initial_genotype config.random_init, ⊤⟩ gens with ⟨stL, effsL, errL⟩
  unfold runMain
  simp only [hw, Bool.false_eq_true, if_false]
  simp only [hAerr, hAev]
  rcases hb : config.base_model with _ | b
  · simp only [derivedRun] at hLoop
    simp only [hLoop]
    cases errL
    · simp [mainPrefix, hb, List.append_assoc]
    · simp [mainPrefix, hb, List.append_assoc]
  · obtain ⟨r, hr⟩ := reshard_model_ok renv b storage_path
      (pathJoin storage_path "lora_merge_cache") trust_remote_code
      (reshardAll renv storage_path (pathJoin storage_path "lora_merge_cache")
        trust_remote_code config.models fs).2.1 hconv
    simp only [hr]
    simp only [derivedRun] at hLoop
    simp only [hLoop]
    cases errL
    · simp [mainPrefix, hb, List.append_assoc]
    · simp [mainPrefix, hb, List.append_assoc]

/-- A reshard call never occurs among driver effects mapped into the trace. -/
theorem reshardCall_not_mem_effMap (m : ModelReference) (l : List DriverEffect) :
    MainEvent.reshardCall m ∉ l.map MainEvent.eff := by
  intro h
  obtain ⟨e, -, he⟩ := List.mem_map.mp h
  cases he

/-- C3: a `KeyboardInterrupt` during the optimizer loop is caught at top
level and not propagated; the driver still emits the final report — best
cost and serialized best configuration — computed from the last
checkpointed best state (the fold of the checkpoint step over the completed
generations), and it is the same report, over the same preceding trace, as
on normal completion. -/
theorem interrupt_graceful_report (genome : GenomeEnv) (renv : ReshardEnv)
    (flags : DriverFlags) (runHandle : WandbRun) (config : EvolConfig)
    (storage_path : String) (trust_remote_code : Bool)
    (evalG : List Genotype → List ℚ) (fs : List String) (gens : List Generation)
    (hm : flags.wandbModule = flags.use_wandb)
    (hlog : runHandle.logOk = true) (hart : runHandle.artifactOk = true)
    (hconv : ∀ d, renv.convOk d = true) :
    ∃ E, runMain genome renv flags runHandle config storage_path trust_remote_code
          evalG fs gens .interrupted =
        (E ++ (finalReport genome
          (foldBest ⟨genome.initial_genotype config.random_init, ⊤⟩
            (gens.map Generation.res))).map MainEvent.eff, none) ∧
      ∀ xb fb, runMain genome renv flags runHandle config storage_path trust_remote_code
          evalG fs gens (.normal xb fb) =
        (E ++ (finalReport genome ⟨xb, (fb : Cost)⟩).map MainEvent.eff, none) := by
  have hw : (flags.use_wandb && !flags.wandbModule) = false := by
    rw [hm]
    exact Bool.and_not_self _
  have hok : telemetryOK flags (derivedRun flags runHandle) :=
    telemetryOK_derived flags runHandle hm hlog hart
  obtain ⟨effsL, hL⟩ := runLoop_ok genome flags (derivedRun flags runHandle)
    storage_path evalG hok gens ⟨genome.initial_genotype config.random_init, ⊤⟩
  refine ⟨mainPrefix flags config ++ effsL.map MainEvent.eff, ?_, ?_⟩
  · rw [runMain_reduce genome renv flags runHandle config storage_path trust_remote_code
      evalG fs gens .interrupted hw hconv, hL]
  · intro xb fb
    rw [runMain_reduce genome renv flags runHandle config storage_path trust_remote_code
      evalG fs gens (.normal xb fb) hw hconv, hL]

/-- C7: every input model and the base model (when present) is resharded
exactly once — one reshard call per configured model, in configuration
order — before the genome and the strategy are built and before the
optimizer loop starts, and no reshard call occurs anywhere later in the
trace. -/
theorem reshard_once_before_loop (genome : GenomeEnv) (renv : ReshardEnv)
    (flags : DriverFlags) (runHandle : WandbRun) (config : EvolConfig)
    (storage_path : String) (trust_remote_code : Bool)
    (evalG : List Genotype → List ℚ) (fs : List String) (gens : List Generation)
    (outcome : LoopOutcome)
    (hw : (flags.use_wandb && !flags.wandbModule) = false)
    (hconv : ∀ d, renv.convOk d = true) :
    ∃ tail err, runMain genome renv flags runHandle config storage_path
        trust_remote_code evalG fs gens outcome =
      ([MainEvent.loadConfig] ++ (if flags.use_wandb then [MainEvent.wandbInit] else []) ++
        [MainEvent.mergeOptionsBuilt] ++
        (config.models ++ config.base_model.toList).map MainEvent.reshardCall ++
        [MainEvent.genomeBuilt, MainEvent.strategyBuilt] ++ tail, err) ∧
      ∀ m, MainEvent.reshardCall m ∉ tail := by
  rcases hLoop : runLoop genome flags (derivedRun flags runHandle) storage_path evalG
      ⟨genome.initial_genotype config.random_init, ⊤⟩ gens with ⟨stL, effsL, errL⟩
  rw [runMain_reduce genome renv flags runHandle config storage_path trust_remote_code
    evalG fs gens outcome hw hconv, hLoop]
  cases errL with
  | none =>
    refine ⟨effsL.map MainEvent.eff ++
      (finalReport genome (match outcome with
        | .normal xb fb => ⟨xb, (fb : Cost)⟩
        | .interrupted => stL)).map MainEvent.eff, none, ?_, ?_⟩
    · simp [mainPrefix, List.append_assoc]
    · intro m hmem
      rcases List.mem_append.mp hmem with h | h
      · exact reshardCall_not_mem_effMap m _ h
      · exact reshardCall_not_mem_effMap m _ h
  | some e =>
    refine ⟨effsL.map MainEvent.eff, some (.telemetry e), ?_, ?_⟩
    · simp [mainPrefix, List.append_assoc]
    · intro m hmem
      exact reshardCall_not_mem_effMap m _ hmem

/-- C10: when wandb reporting is requested but the wandb package is not
importable, `main` raises its `RuntimeError` right after loading the run
configuration — before building merge options, resharding any model,
constructing the genome or strategy, or doing any evaluation work. -/
theorem wandb_missing_raises (genome : GenomeEnv) (renv : ReshardEnv)
    (flags : DriverFlags) (runHandle : WandbRun) (config : EvolConfig)
    (storage_path : String) (trust_remote_code : Bool)
    (evalG : List Genotype → List ℚ) (fs : List String) (gens : List Generation)
    (outcome : LoopOutcome)
    (hu : flags.use_wandb = true) (hm : flags.wandbModule = false) :
    runMain genome renv flags runHandle config storage_path trust_remote_code evalG
        fs gens outcome = ([MainEvent.loadConfig], some .wandbNotInstalled) := by
  unfold runMain
  rw [hu, hm]
  rfl

/-- Witness for C3 at a concrete input: a run with one completed generation
that is interrupted still reports, from the checkpointed state, the same
report normal completion would produce. -/
theorem interrupt_graceful_report_witness :
    ∃ E, runMain ⟨fun _ => [], fun _ => ⟨"y"⟩⟩
          ⟨fun m _ _ => m, fun d => d.path, fun _ => true, fun _ => true⟩
          ⟨false, false⟩ ⟨true, true⟩ ⟨[], none, false⟩ "s" false (fun _ => [])
          [] [⟨[[1]], ⟨2, [3], [], [], 1⟩⟩] .interrupted =
        (E ++ (finalReport ⟨fun _ => [], fun _ => ⟨"y"⟩⟩
          (foldBest ⟨(⟨fun _ => [], fun _ => ⟨"y"⟩⟩ : GenomeEnv).initial_genotype false, ⊤⟩
            ([⟨[[1]], ⟨2, [3], [], [], 1⟩⟩].map Generation.res))).map MainEvent.eff, none) ∧
      ∀ xb fb, runMain ⟨fun _ => [], fun _ => ⟨"y"⟩⟩
          ⟨fun m _ _ => m, fun d => d.path, fun _ => true, fun _ => true⟩
          ⟨false, false⟩ ⟨true, true⟩ ⟨[], none, false⟩ "s" false (fun _ => [])
          [] [⟨[[1]], ⟨2, [3], [], [], 1⟩⟩] (.normal xb fb) =
        (E ++ (finalReport ⟨fun _ => [], fun _ => ⟨"y"⟩⟩ ⟨xb, (fb : Cost)⟩).map
          MainEvent.eff, none) :=
  interrupt_graceful_report ⟨fun _ => [], fun _ => ⟨"y"⟩⟩
    ⟨fun m _ _ => m, fun d => d.path, fun _ => true, fun _ => true⟩
    ⟨false, false⟩ ⟨true, true⟩ ⟨[], none, false⟩ "s" false (fun _ => [])
    [] [⟨[[1]], ⟨2, [3], [], [], 1⟩⟩] rfl rfl rfl (fun _ => rfl)

/-- Witness for C7 at a concrete input: one input model and a base model are
each resharded exactly once before genome and strategy construction, with no
reshard call later. -/
theorem reshard_once_before_loop_witness :
    ∃ tail err, runMain ⟨fun _ => [], fun _ => ⟨"y"⟩⟩
        ⟨fun m _ _ => m, fun d => d.path, fun _ => true, fun _ => true⟩
        ⟨false, false⟩ ⟨true, true⟩ ⟨[⟨⟨"m1", none⟩⟩], some ⟨⟨"b", none⟩⟩, false⟩ "s"
        false (fun _ => []) [] [] .interrupted =
      ([MainEvent.loadConfig] ++
        (if (⟨false, false⟩ : DriverFlags).use_wandb then [MainEvent.wandbInit] else []) ++
        [MainEvent.mergeOptionsBuilt] ++
        (([⟨⟨"m1", none⟩⟩] : List ModelReference) ++
          (some (⟨⟨"b", none⟩⟩ : ModelReference)).toList).map MainEvent.reshardCall ++
        [MainEvent.genomeBuilt, MainEvent.strategyBuilt] ++ tail, err) ∧
      ∀ m, MainEvent.reshardCall m ∉ tail :=
  reshard_once_before_loop ⟨fun _ => [], fun _ => ⟨"y"⟩⟩
    ⟨fun m _ _ => m, fun d => d.path, fun _ => true, fun _ => true⟩
    ⟨false, false⟩ ⟨true, true⟩ ⟨[⟨⟨"m1", none⟩⟩], some ⟨⟨"b", none⟩⟩, false⟩ "s"
    false (fun _ => []) [] [] .interrupted rfl (fun _ => rfl)

/-- Witness for C10 at a concrete input: `--wandb` with the wandb import
having failed stops the run right after configuration load. -/
theorem wandb_missing_raises_witness :
    runMain ⟨fun _ => [], fun _ => ⟨"y"⟩⟩
        ⟨fun m _ _ => m, fun d => d.path, fun _ => true, fun _ => true⟩
        ⟨true, false⟩ ⟨true, true⟩ ⟨[⟨⟨"m1", none⟩⟩], none, false⟩ "s" false
        (fun _ => []) [] [] .interrupted =
      ([MainEvent.loadConfig], some .wandbNotInstalled) :=
  wandb_missing_raises ⟨fun _ => [], fun _ => ⟨"y"⟩⟩
    ⟨fun m _ _ => m, fun d => d.path, fun _ => true, fun _ => true⟩
    ⟨true, false⟩ ⟨true, true⟩ ⟨[⟨⟨"m1", none⟩⟩], none, false⟩ "s" false
    (fun _ => []) [] [] .interrupted rfl rfl

/-- C6 fails on the code: with the wandb module importable but `--no-wandb`
(so the run handle is `None`), the guard `if wandb:` in `parallel_evaluate`
still dereferences the handle, the resulting exception is not caught
anywhere (the top-level handler only catches `KeyboardInterrupt`), and the
whole search aborts during the first batch — no checkpoint, no final
report.  This theorem evaluates the embedded driver at that failing input:
the run ends with a propagated telemetry error and the completion banner is
never printed. -/
theorem telemetry_failure_aborts_search :
    runMain ⟨fun _ => [], fun _ => ⟨"y"⟩⟩
        ⟨fun m _ _ => m, fun d => d.path, fun _ => true, fun _ => true⟩
        ⟨false, true⟩ ⟨true, true⟩ ⟨[], none, false⟩ "s" false (fun _ => [])
        [] [⟨[[1]], ⟨1, [1], [], [], 1⟩⟩] (.normal [] 0) =
      ([MainEvent.loadConfig, .mergeOptionsBuilt, .genomeBuilt, .strategyBuilt,
        .eff (.printReceived 1)], some (.telemetry .runIsNone)) ∧
    MainEvent.eff .printComplete ∉
      [MainEvent.loadConfig, .mergeOptionsBuilt, .genomeBuilt, .strategyBuilt,
        .eff (.printReceived 1)] :=
  ⟨rfl, by decide⟩

/-! ## Evaluation strategies (spec-modelled) -/

/-- Modelled from the spec: the three evaluation strategy classes
(`SerialEvaluationStrategy`, `ActorPoolEvaluationStrategy`,
`BufferedRayEvaluationStrategy`) live in `mergekit/evo/strategy.py`, which
is not part of this source tree; only their construction and their
`evaluate_genotypes` calls appear in the driver.  Serial evaluates one
genotype at a time in input order; the actor pool dispatches to idle
workers and harvests completions in arbitrary order; the buffered strategy
keeps at most a pipeline-depth of jobs in flight, draining and refilling —
both reassemble results into the original input order before returning. -/
inductive StrategyKind
  | serial
  | pool
  | buffered
deriving DecidableEq

/-- Modelled from the spec: reassembly of asynchronously harvested
`(input index, fitness)` completions into the caller's original input
order — an output slot per input, each completion written to its slot. -/
def reassemble (n : Nat) (completions : List (Nat × ℚ)) : List ℚ :=
  (completions.foldl (fun acc p => acc.set p.1 (some p.2))
    (List.replicate n (none : Option ℚ))).map (fun o => o.getD 0)

/-- Modelled from the spec: `evaluate_genotypes(batch)` for each strategy.
`score` is the merge-and-evaluate pipeline for one genotype; `order` is the
internal completion order of the asynchronous strategies (ignored by
serial, which runs in input order). -/
def evaluate_genotypes (kind : StrategyKind) (score : Genotype → ℚ)
    (order : List Nat) (batch : List Genotype) : List ℚ :=
  match kind with
  | .serial => batch.map score
  | .pool => reassemble batch.length (order.map fun i => (i, score (batch.getD i [])))
  | .buffered => reassemble batch.length (order.map fun i => (i, score (batch.getD i [])))

/-- Modelled from the spec: the buffered strategy submits jobs first-in
first-out with at most `depth` in flight, so the `k`-th completion must be
one of the first `min n (depth + k)` submitted jobs. -/
abbrev windowOK (depth n : Nat) (order : List Nat) : Prop :=
  ∀ k, k < order.length → order.getD k 0 < min n (depth + k)

/-- The completion orders each strategy can produce on a batch of `n`
genotypes: serial completes in input order; the actor pool in any
permutation; the buffered strategy in any permutation obeying its
pipeline-depth window. -/
def validOrder : StrategyKind → Nat → Nat → List Nat → Prop
  | .serial, _, n, order => order = List.range n
  | .pool, _, n, order => order.Perm (List.range n)
  | .buffered, depth, n, order => order.Perm (List.range n) ∧ windowOK depth n order

/-- Writing completions into slots preserves the slot-array length. -/
theorem foldl_set_length (comps : List (Nat × ℚ)) :
    ∀ acc : List (Option ℚ),
      (comps.foldl (fun a p => a.set p.1 (some p.2)) acc).length = acc.length := by
  induction comps with
  | nil => intro acc; rfl
  | cons p tl ih =>
    intro acc
    rw [List.foldl_cons, ih]
    exact List.length_set acc p.1 (some p.2)

/-- Slot-filling core: if every completion for index `i` carries the value
`f i`, and `i` is either among the completion indices or already filled
with `f i`, then after the fold slot `i` holds `f i`. -/
theorem reassemble_core (f : Nat → ℚ) :
    ∀ (comps : List (Nat × ℚ)) (acc : List (Option ℚ)) (i : Nat),
      (∀ p ∈ comps, p.2 = f p.1) → i < acc.length →
      (i ∈ comps.map Prod.fst ∨ acc[i]? = some (some (f i))) →
      (comps.foldl (fun a p => a.set p.1 (some p.2)) acc)[i]? = some (some (f i)) := by
  intro comps
  induction comps with
  | nil =>
    intro acc i _ _ hmem
    rcases hmem with h | h
    · simp at h
    · exact h
  | cons p tl ih =>
    intro acc i hv hlen hmem
    rw [List.foldl_cons]
    apply ih (acc.set p.1 (some p.2)) i
    · intro q hq
      exact hv q (List.mem_cons_of_mem _ hq)
    · simpa using hlen
    · by_cases hip : i = p.1
      · right
        have hval : p.2 = f i := by
          rw [hv p (List.mem_cons_self p tl), hip]
        subst hip
        rw [List.getElem?_set_eq_of_lt _ hlen, hval]
      · rcases hmem with h | h
        · rw [List.map_cons] at h
          rcases List.mem_cons.mp h with h' | h'
          · exact absurd h' hip
          · exact Or.inl h'
        · right
          rw [List.getElem?_set_ne (fun he => hip he.symm)]
          exact h

/-- Reassembly is positionally correct: for any completion order that is a
permutation of the input indices, the output has the input's length and its
`i`-th entry is the score of the `i`-th input genotype. -/
theorem reassemble_spec (score : Genotype → ℚ) (order : List Nat) (batch : List Genotype)
    (hperm : order.Perm (List.range batch.length)) :
    (reassemble batch.length (order.map fun i => (i, score (batch.getD i [])))).length
        = batch.length ∧
    ∀ i, i < batch.length →
      (reassemble batch.length (order.map fun i => (i, score (batch.getD i []))))[i]? =
        (batch[i]?).map score := by
  constructor
  · unfold reassemble
    rw [List.length_map, foldl_set_length, List.length_replicate]
  · intro i hi
    have hv : ∀ p ∈ (order.map fun i => (i, score (batch.getD i []))),
        p.2 = (fun j => score (batch.getD j [])) p.1 := by
      intro p hp
      obtain ⟨j, -, rfl⟩ := List.mem_map.mp hp
      rfl
    have hlen : i < (List.replicate batch.length (none : Option ℚ)).length := by
      simpa using hi
    have hkeys : i ∈ (order.map fun i => (i, score (batch.getD i []))).map Prod.fst := by
      rw [List.map_map]
      have hmemo : i ∈ order := hperm.mem_iff.mpr (List.mem_range.mpr hi)
      simpa using hmemo
    have hcore := reassemble_core (fun j => score (batch.getD j [])) _
      (List.replicate batch.length (none : Option ℚ)) i hv hlen (Or.inl hkeys)
    unfold reassemble
    rw [List.getElem?_map, hcore]
    simp [List.getElem?_eq_getElem hi, List.getD_eq_getElem batch [] hi]

/-- C8 (spec-modelled): for every evaluation strategy — serial, actor pool,
buffered distributed — and every batch, `evaluate_genotypes` returns a
sequence of the batch's length whose `i`-th element is the fitness of the
`i`-th input genotype, regardless of the internal completion order the
strategy's scheduling produced. -/
theorem evaluate_genotypes_ordering (kind : StrategyKind) (depth : Nat)
    (score : Genotype → ℚ) (order : List Nat) (batch : List Genotype)
    (h : validOrder kind depth batch.length order) :
    (evaluate_genotypes kind score order batch).length = batch.length ∧
    ∀ i, i < batch.length →
      (evaluate_genotypes kind score order batch)[i]? = (batch[i]?).map score := by
  cases kind with
  | serial =>
    refine ⟨by simp [evaluate_genotypes], ?_⟩
    intro i hi
    simp [evaluate_genotypes]
  | pool => exact reassemble_spec score order batch h
  | buffered => exact reassemble_spec score order batch h.1

/-- Witness for C8 at a concrete input: the buffered strategy with pipeline
depth 1 and in-order completions on a two-genotype batch returns the scores
in input order. -/
theorem evaluate_genotypes_ordering_witness :
    (evaluate_genotypes .buffered (fun g => g.headD 0) [0, 1] [[1], [2]]).length
        = ([[1], [2]] : List Genotype).length ∧
    ∀ i, i < ([[1], [2]] : List Genotype).length →
      (evaluate_genotypes .buffered (fun g => g.headD 0) [0, 1] [[1], [2]])[i]? =
        (([[1], [2]] : List Genotype)[i]?).map (fun g => g.headD 0) :=
  evaluate_genotypes_ordering .buffered 1 (fun g => g.headD 0) [0, 1] [[1], [2]]
    ⟨by decide, by decide⟩
